import Mathlib

/-!
Verification development for the realtime-message repository.

Shallow embedding of the shared serializer, the SDK client (send buffer,
heartbeat engine, channel state machine, presence reconciler) and the server
(channel registry, broadcast fan-out, presence store, join handler).
Each definition mirrors one function of the TypeScript source; the theorems
at the end of the file settle the specification claims against it.
-/

namespace Realtime

/-- Model of a JSON value (payloads travel as JSON on the wire; numbers are
modelled as integers since no claim depends on float arithmetic). -/
inductive Json where
  | null
  | bool (b : Bool)
  | num (n : Int)
  | str (s : String)
  | arr (elems : List Json)
  | obj (fields : List (String × Json))

/-- packages/shared/src/constants.ts : SYSTEM_TOPIC. -/
def SYSTEM_TOPIC : String := "$system"

/-- packages/shared/src/constants.ts : WS_CLOSE_NORMAL. -/
def WS_CLOSE_NORMAL : Nat := 1000

/-- packages/shared/src/constants.ts : MAX_PUSH_BUFFER_SIZE (channel pre-join buffer). -/
def MAX_PUSH_BUFFER_SIZE : Nat := 100

/-- packages/shared/src/constants.ts : MAX_SEND_BUFFER_SIZE (client send buffer). -/
def MAX_SEND_BUFFER_SIZE : Nat := 1000

namespace Serializer

/-- Runtime shape of a decoded frame. `decode` in serializer.ts destructures the
five array slots and casts them without validating the field types, so every
field is modelled as an arbitrary JSON value. -/
structure Message where
  join_seq : Json
  seq : Json
  topic : Json
  event : Json
  payload : Json

/-- serializer.ts `encode`: render the message as the ordered 5-element raw
array. (JSON.stringify of that array is the transport's concern; its failure
mode, a non-serializable value, cannot arise for JSON-valued fields.) -/
def encode (message : Message) : Json :=
  Json.arr [message.join_seq, message.seq, message.topic, message.event, message.payload]

/-- serializer.ts `decode`: `none` input stands for bytes that are not valid
JSON (JSON.parse threw); otherwise the value must be an array of length 5,
whose slots become the message fields unchecked. Any failure returns the
drop-frame signal `none`; nothing is thrown. -/
def decode (data : Option Json) : Option Message :=
  match data with
  | none => none
  | some raw =>
    match raw with
    | Json.arr [join_seq, seq, topic, event, payload] =>
      some { join_seq := join_seq, seq := seq, topic := topic, event := event, payload := payload }
    | _ => none

/-- A raw value from which decode can produce a frame: a JSON array of length 5. -/
def WellFormedRaw (raw : Json) : Prop :=
  ∃ elems, raw = Json.arr elems ∧ elems.length = 5

end Serializer

/-- One presence under a key: `{presence_ref, meta}`. The meta type is a
parameter, mirroring the generic `Presence<T>` of the SDK. -/
structure Presence (α : Type) where
  presence_ref : String
  meta : α
  deriving DecidableEq

/-- Client presence state: a JS object mapping user key to an ordered list of
presences, modelled as an insertion-ordered association list with unique keys. -/
abbrev PresenceState (α : Type) := List (String × List (Presence α))

/-- A `presence_diff` payload: `{joins, leaves}`, each the same map shape. -/
structure PresenceDiff (α : Type) where
  joins : PresenceState α
  leaves : PresenceState α
  deriving DecidableEq

/-- JS object read `state[key]`: value of the first (only) matching key. -/
def objGet {α : Type} : PresenceState α → String → Option (List (Presence α))
  | [], _ => none
  | (k, v) :: rest, key => if k = key then some v else objGet rest key

/-- JS object write `state[key] = value`: replace in place when the key exists,
append otherwise. -/
def objSet {α : Type} : PresenceState α → String → List (Presence α) → PresenceState α
  | [], key, value => [(key, value)]
  | (k, v) :: rest, key, value =>
    if k = key then (key, value) :: rest else (k, v) :: objSet rest key value

/-- JS object `delete state[key]`. -/
def objDel {α : Type} (st : PresenceState α) (key : String) : PresenceState α :=
  st.filter (fun kv => kv.1 != key)

/-- Mutable fields of RealtimePresence (push.ts): the local state, the
"have snapshot" join ref, and the pending-diff list (declared in the source
but never appended to). -/
structure PresenceCtx (α : Type) where
  joinRef : Option String
  state : PresenceState α
  pendingDiffs : List (PresenceDiff α)

/-- Callback firings of the reconciler, in emission order. `leave` and `join`
carry the arguments passed to the user callback. -/
inductive PresenceEvent (α : Type) where
  | leave (key : String) (currentPresences leftPresences : List (Presence α))
  | join (key : String) (currentPresences newPresences : List (Presence α))
  | sync
  deriving DecidableEq

/-- Body of the leaves loop of RealtimePresence.handleDiff for one key:
subtract the left presences by presence_ref, delete the key when the remainder
is empty, and fire the leave callback when the left list is non-empty. -/
def applyLeave {α : Type} (st : PresenceState α) (kv : String × List (Presence α)) :
    PresenceState α × List (PresenceEvent α) :=
  let key := kv.1
  let leftPresences := kv.2
  let currentPresences := (objGet st key).getD []
  let leftRefs := leftPresences.map (fun p => p.presence_ref)
  let remainingPresences := currentPresences.filter (fun p => ! leftRefs.contains p.presence_ref)
  let st' := if remainingPresences.isEmpty then objDel st key else objSet st key remainingPresences
  (st', if leftPresences.isEmpty then [] else [.leave key remainingPresences leftPresences])

/-- Body of the joins loop of RealtimePresence.handleDiff for one key: keep
only the incoming presences whose ref is not already present, append them to
the key's list, and fire the join callback when any were added. -/
def applyJoin {α : Type} (st : PresenceState α) (kv : String × List (Presence α)) :
    PresenceState α × List (PresenceEvent α) :=
  let key := kv.1
  let newPresences := kv.2
  let currentPresences := (objGet st key).getD []
  let existingRefs := currentPresences.map (fun p => p.presence_ref)
  let uniqueNew := newPresences.filter (fun p => ! existingRefs.contains p.presence_ref)
  let merged := currentPresences ++ uniqueNew
  (objSet st key merged, if uniqueNew.isEmpty then [] else [.join key merged uniqueNew])

/-- Fold one of the two diff loops over all keys, accumulating callback events. -/
def applyEntries {α : Type}
    (step : PresenceState α → String × List (Presence α) → PresenceState α × List (PresenceEvent α))
    (st : PresenceState α) (entries : PresenceState α) :
    PresenceState α × List (PresenceEvent α) :=
  match entries with
  | [] => (st, [])
  | kv :: rest =>
    let stepResult := step st kv
    let restResult := applyEntries step stepResult.1 rest
    (restResult.1, stepResult.2 ++ restResult.2)

/-- RealtimePresence.handleDiff: when no snapshot was received yet, initialize
with the empty state (joinRef := "auto"); then process all leaves, then all
joins, then fire exactly one sync callback. -/
def handleDiff {α : Type} (ctx : PresenceCtx α) (diff : PresenceDiff α) :
    PresenceCtx α × List (PresenceEvent α) :=
  let ctx :=
    if ctx.joinRef.isNone then
      { ctx with joinRef := some "auto", state := [] }
    else ctx
  let leavesResult := applyEntries applyLeave ctx.state diff.leaves
  let joinsResult := applyEntries applyJoin leavesResult.1 diff.joins
  ({ ctx with state := joinsResult.1 }, leavesResult.2 ++ joinsResult.2 ++ [.sync])

/-- RealtimePresence.handleState: adopt the snapshot and join ref, replay the
buffered diffs (each replay emits its own callbacks), clear the buffer, and
fire one sync callback. -/
def handleState {α : Type} (ctx : PresenceCtx α) (newState : PresenceState α)
    (newJoinRef : Option String) : PresenceCtx α × List (PresenceEvent α) :=
  let ctx := { ctx with joinRef := newJoinRef, state := newState }
  let folded := ctx.pendingDiffs.foldl
    (fun acc diff => ((handleDiff acc.1 diff).1, acc.2 ++ (handleDiff acc.1 diff).2))
    (ctx, ([] : List (PresenceEvent α)))
  ({ folded.1 with pendingDiffs := [] }, folded.2 ++ [.sync])

/-- RealtimePresence.reset. -/
def presenceReset {α : Type} : PresenceCtx α :=
  { joinRef := none, state := [], pendingDiffs := [] }

/-- Event-kind test used to state callback ordering. -/
def PresenceEvent.isLeaveEvent {α : Type} : PresenceEvent α → Bool
  | .leave _ _ _ => true
  | _ => false

/-- Event-kind test used to state callback ordering. -/
def PresenceEvent.isJoinEvent {α : Type} : PresenceEvent α → Bool
  | .join _ _ _ => true
  | _ => false

/-- Event-kind test used to state callback ordering. -/
def PresenceEvent.isSyncEvent {α : Type} : PresenceEvent α → Bool
  | .sync => true
  | _ => false

/-- Invariant of the claim set: no key's list holds two presences with the
same presence_ref. -/
def NoDupRefs {α : Type} (st : PresenceState α) : Prop :=
  ∀ kv ∈ st, (kv.2.map (fun p => p.presence_ref)).Nodup

instance noDupRefsDecidable {α : Type} (st : PresenceState α) : Decidable (NoDupRefs st) :=
  List.decidableBAll _ st

/-- The value a key's entry takes after its leave is applied, stated from the
claim's words: exactly the presences whose ref is in the leave set are
removed, and the key is deleted (none) when its list becomes empty. -/
def specLeaveResult {α : Type} (cur : Option (List (Presence α)))
    (leftPresences : List (Presence α)) : Option (List (Presence α)) :=
  let current := cur.getD []
  let leftRefs := leftPresences.map (fun p => p.presence_ref)
  let remaining := current.filter (fun p => ! leftRefs.contains p.presence_ref)
  if remaining.isEmpty then none else some remaining

/-- The value a key's entry takes after its join is applied, stated from the
claim's words: only the incoming presences whose ref is not already present
under the key are appended. -/
def specJoinResult {α : Type} (cur : Option (List (Presence α)))
    (newPresences : List (Presence α)) : Option (List (Presence α)) :=
  let current := cur.getD []
  let existingRefs := current.map (fun p => p.presence_ref)
  some (current ++ newPresences.filter (fun p => ! existingRefs.contains p.presence_ref))

/-- Reading of claim C8's predicted result, from the claim's words: the diff's
joins minus its leaves (per key, drop the presences whose ref appears in the
key's leave set; drop a key whose list becomes empty). -/
def specJoinsMinusLeaves {α : Type} (diff : PresenceDiff α) : PresenceState α :=
  (diff.joins.map (fun kv =>
    let leftRefs := ((objGet diff.leaves kv.1).getD []).map (fun p => p.presence_ref)
    (kv.1, kv.2.filter (fun p => ! leftRefs.contains p.presence_ref)))).filter
    (fun kv => ! kv.2.isEmpty)

/-- JS String.prototype.startsWith, modelled over the character lists so that
concrete instances evaluate inside the kernel. -/
def strStartsWith (s pat : String) : Bool :=
  pat.data.isPrefixOf s.data

/-- Channel broadcast options (shared types): `{self, ack}`. -/
structure BroadcastConfig where
  self : Bool
  ack : Bool
  deriving DecidableEq

/-- Channel presence options (shared types): `{key, enabled}`. -/
structure PresenceConfig where
  key : String
  enabled : Bool
  deriving DecidableEq

/-- Effective channel configuration after defaulting. -/
structure ChannelConfig where
  broadcast : BroadcastConfig
  presence : PresenceConfig
  deriving DecidableEq

/-- `broadcast` payload `{type: "broadcast", event, payload}` (the type tag is
the fixed literal and is left implicit). -/
structure BroadcastPayload where
  event : String
  payload : Json

/-- Client `presence` request payload: `{type: "presence", event: "track",
payload: {key, meta}}` or `{type: "presence", event: "untrack"}`. -/
inductive PresencePayload where
  | track (key : String) (meta : Json)
  | untrack

/-- Reply status literal of a `chan:reply` payload. -/
inductive ReplyStatus where
  | ok
  | error
  deriving DecidableEq

/-- Fields of a reply's `response` record that the code reads or writes; each
is optional since the record is built with just the relevant fields. -/
structure ReplyResponse where
  reason : Option String := none
  code : Option String := none
  recipientCount : Option Nat := none

/-- `chan:reply` payload `{status, response}`. -/
structure ReplyPayload where
  status : ReplyStatus
  response : ReplyResponse

/-- The payload slot of an engine-level frame, as a sum of the shapes the
handlers construct and read (the TypeScript type is `unknown` plus casts). -/
inductive Payload where
  | empty
  | join (accessToken : Option String) (config : ChannelConfig)
  | reply (p : ReplyPayload)
  | broadcast (p : BroadcastPayload)
  | presence (p : PresencePayload)
  | presenceState (s : PresenceState Json)
  | presenceDiff (d : PresenceDiff Json)

/-- Engine-level frame (shared types `Message`): nullable join_seq and seq,
topic, event, payload. -/
structure Message where
  join_seq : Option String
  seq : Option String
  topic : String
  event : String
  payload : Payload

/-- Channel states (shared constants CHANNEL_STATES). -/
inductive ChannelState where
  | closed
  | errored
  | joined
  | joining
  | leaving
  deriving DecidableEq

/-- Subscribe callback states (shared constants REALTIME_SUBSCRIBE_STATES). -/
inductive SubscribeState where
  | SUBSCRIBED
  | TIMED_OUT
  | CLOSED
  | CHANNEL_ERROR
  deriving DecidableEq

namespace RealtimeChannel

/-- Content of a queued `Push` (lib/push.ts): the event name and payload it
will send on the channel once `send()` runs. -/
structure ChanPush where
  event : String
  payload : Payload

/-- The RealtimeChannel fields the claims touch: state, fixed join sequence,
pre-join push buffer, last-tracked presence meta and the parsed config. -/
structure Channel where
  topic : String
  state : ChannelState
  joinSeq : Option String
  pushBuffer : List ChanPush
  trackedPresenceMeta : Option Json
  config : ChannelConfig
  wasJoined : Bool

/-- Outbound traffic of one channel operation: a request `Push` that was
created and sent, or a fire-and-forget frame pushed straight to the socket. -/
inductive Outbound where
  | request (p : ChanPush)
  | fireAndForget (m : Message)

/-- Client-visible resolution value `{status, reason?}`
(RealtimeChannelSendResponse). -/
structure SendResponse where
  status : String
  reason : Option String := none

/-- Result of invoking one channel operation: the updated channel, the
immediately-resolved response when the promise settles without a round trip,
and everything handed to the socket. -/
structure OpResult where
  channel : Channel
  response : Option SendResponse
  outbound : List Outbound

/-- RealtimeChannel.track: reject immediately when not joined; otherwise send
a presence track request. (`trackedPresenceMeta` is stored only by the `ok`
receive hook, modelled separately as `trackOkHook`.) -/
def track (ch : Channel) (meta : Json) : OpResult :=
  if ch.state ≠ ChannelState.joined then
    { channel := ch
      response := some { status := "error", reason := some "Channel not joined" }
      outbound := [] }
  else
    { channel := ch
      response := none
      outbound := [.request ⟨"presence", .presence (.track ch.config.presence.key meta)⟩] }

/-- The `ok` receive hook of RealtimeChannel.track: store the meta for
re-tracking after reconnect. -/
def trackOkHook (ch : Channel) (meta : Json) : Channel :=
  { ch with trackedPresenceMeta := some meta }

/-- RealtimeChannel.untrack: reject immediately when not joined; otherwise
send a presence untrack request. -/
def untrack (ch : Channel) : OpResult :=
  if ch.state ≠ ChannelState.joined then
    { channel := ch
      response := some { status := "error", reason := some "Channel not joined" }
      outbound := [] }
  else
    { channel := ch
      response := none
      outbound := [.request ⟨"presence", .presence .untrack⟩] }

/-- The `ok` receive hook of RealtimeChannel.untrack: clear the saved meta. -/
def untrackOkHook (ch : Channel) : Channel :=
  { ch with trackedPresenceMeta := none }

/-- RealtimeChannel.send: reject immediately when not joined; with
`broadcast.ack` send a request, otherwise push a fire-and-forget frame with
null seq and resolve ok on enqueue. -/
def send (ch : Channel) (event : String) (payload : Json) : OpResult :=
  if ch.state ≠ ChannelState.joined then
    { channel := ch
      response := some { status := "error", reason := some "Channel not joined" }
      outbound := [] }
  else
    let broadcastPayload : BroadcastPayload := { event := event, payload := payload }
    if ch.config.broadcast.ack then
      { channel := ch
        response := none
        outbound := [.request ⟨"broadcast", .broadcast broadcastPayload⟩] }
    else
      { channel := ch
        response := some { status := "ok" }
        outbound := [.fireAndForget
          { join_seq := ch.joinSeq, seq := none, topic := ch.topic
            event := "broadcast", payload := .broadcast broadcastPayload }] }

/-- RealtimeChannel.pushToBuffer: bounded pre-join buffer; at capacity the
oldest entry is shifted off before the new one is appended. -/
def pushToBuffer (ch : Channel) (p : ChanPush) : Channel :=
  let buffer :=
    if ch.pushBuffer.length ≥ MAX_PUSH_BUFFER_SIZE then ch.pushBuffer.tail
    else ch.pushBuffer
  { ch with pushBuffer := buffer ++ [p] }

/-- RealtimeChannel.flushPushBuffer: when joined, send every buffered push in
FIFO order and leave the buffer empty; otherwise do nothing. -/
def flushPushBuffer (ch : Channel) : Channel × List ChanPush :=
  if ch.state = ChannelState.joined then
    ({ ch with pushBuffer := [] }, ch.pushBuffer)
  else (ch, [])

/-- What a subscribe receive hook does besides mutating the channel: which
subscribe-callback status fires and whether the rejoin timer was armed. -/
structure HookResult where
  channel : Channel
  callbackEvent : Option SubscribeState
  rejoinScheduled : Bool

/-- The `error` receive hook installed by RealtimeChannel.doSubscribe on the
join push: state becomes errored, the subscribe callback fires CHANNEL_ERROR,
and the rejoin timer is armed unless the error code starts with "AUTH_". -/
def joinErrorHook (ch : Channel) (response : ReplyResponse) : HookResult :=
  { channel := { ch with state := ChannelState.errored }
    callbackEvent := some .CHANNEL_ERROR
    rejoinScheduled :=
      match response.code with
      | some code => ! strStartsWith code "AUTH_"
      | none => true }

/-- The `timeout` receive hook installed by RealtimeChannel.doSubscribe:
ignored unless still joining; otherwise state becomes errored, the subscribe
callback fires TIMED_OUT, and the rejoin timer is armed. -/
def joinTimeoutHook (ch : Channel) : HookResult :=
  if ch.state ≠ ChannelState.joining then
    { channel := ch, callbackEvent := none, rejoinScheduled := false }
  else
    { channel := { ch with state := ChannelState.errored }
      callbackEvent := some .TIMED_OUT
      rejoinScheduled := true }

/-- The `ok` receive hook installed by RealtimeChannel.doSubscribe: state
becomes joined, the join sequence is fixed to the join push's seq, wasJoined
is set, the subscribe callback fires SUBSCRIBED, and the pre-join buffer is
flushed (re-tracking of stored presence meta then runs through `track`). -/
def joinOkHook (ch : Channel) (joinPushSeq : Option String) : HookResult × List ChanPush :=
  let ch := { ch with
    state := ChannelState.joined
    joinSeq := joinPushSeq
    wasJoined := true }
  let flushed := flushPushBuffer ch
  ({ channel := flushed.1, callbackEvent := some .SUBSCRIBED, rejoinScheduled := false },
    flushed.2)

end RealtimeChannel

namespace RealtimeClient

/-- The buffered-sender fields of RealtimeClient: whether the link is open,
the queued send closures (modelled by the captured value), and the frames
already written to the link. The element type is a parameter since the
closures are opaque to the buffer discipline. -/
structure SendState (α : Type) where
  connected : Bool
  sendBuffer : List α
  wire : List α

/-- RealtimeClient.push: write immediately while connected, otherwise append
the send closure to the send buffer (no size check is performed). -/
def push {α : Type} (s : SendState α) (message : α) : SendState α :=
  if s.connected then { s with wire := s.wire ++ [message] }
  else { s with sendBuffer := s.sendBuffer ++ [message] }

/-- RealtimeClient.flushSendBuffer: repeatedly shift the oldest closure and
run it while the buffer is non-empty and the link is connected. -/
def flushSendBuffer {α : Type} (s : SendState α) : SendState α :=
  match h : s.sendBuffer with
  | [] => s
  | m :: rest =>
    if s.connected then
      flushSendBuffer { s with sendBuffer := rest, wire := s.wire ++ [m] }
    else s
termination_by s.sendBuffer.length
decreasing_by simp [h]

/-- Heartbeat status hook values (shared types HeartbeatStatus). -/
inductive HeartbeatStatus where
  | sent
  | ok
  | error
  | timeout
  | disconnected
  deriving DecidableEq

/-- The RealtimeClient fields driving the heartbeat engine: connectivity, the
seq counter, and the pending (outstanding) heartbeat seq. -/
structure HeartbeatState where
  connected : Bool
  seqCounter : Nat
  pendingHeartbeatSeq : Option String

/-- Observable effects of one heartbeat engine step: the status reported to
the heartbeat callback, a close call `(code, reason)` on the link, and the
frames pushed. -/
structure HeartbeatEffects where
  status : Option HeartbeatStatus
  closeCall : Option (Nat × String)
  pushedFrames : List Message

/-- RealtimeClient.makeSeq: increment the counter and stringify it. -/
def makeSeq (counter : Nat) : Nat × String :=
  (counter + 1, toString (counter + 1))

/-- RealtimeClient.sendHeartbeat, fired by the heartbeat interval: report
disconnected when the link is down; declare a timeout and close the link with
(1000, "heartbeat timeout") when a probe is still outstanding; otherwise
allocate a fresh seq, record it as pending, report sent, and push the
heartbeat request on the system topic. -/
def sendHeartbeat (s : HeartbeatState) : HeartbeatState × HeartbeatEffects :=
  if ¬ s.connected then
    (s, { status := some .disconnected, closeCall := none, pushedFrames := [] })
  else
    match s.pendingHeartbeatSeq with
    | some _ =>
      (s, { status := some .timeout
            closeCall := some (WS_CLOSE_NORMAL, "heartbeat timeout")
            pushedFrames := [] })
    | none =>
      let (counter, seq) := makeSeq s.seqCounter
      ({ s with seqCounter := counter, pendingHeartbeatSeq := some seq },
        { status := some .sent
          closeCall := none
          pushedFrames := [{ join_seq := none, seq := some seq, topic := SYSTEM_TOPIC
                             event := "heartbeat", payload := .empty }] })

/-- The heartbeat-reply branch of RealtimeClient.handleMessage: a frame on the
system topic with event chan:reply whose seq strictly equals the pending seq
clears the pending probe and reports ok; any other frame is handled elsewhere. -/
def handleHeartbeatReply (s : HeartbeatState) (m : Message) :
    Option (HeartbeatState × HeartbeatStatus) :=
  if m.topic = SYSTEM_TOPIC ∧ m.event = "chan:reply" ∧ m.seq = s.pendingHeartbeatSeq then
    some ({ s with pendingHeartbeatSeq := none }, .ok)
  else none

/-- Number of outstanding heartbeat probes recorded by the client. -/
def outstandingProbes (s : HeartbeatState) : Nat :=
  match s.pendingHeartbeatSeq with
  | some _ => 1
  | none => 0

/-- One scheduler event touching the heartbeat engine: an interval tick, an
inbound frame, or the stopHeartbeat cleanup run on link close. -/
inductive HeartbeatEvent where
  | tick
  | inbound (m : Message)
  | stop

/-- Step the heartbeat fields of the client by one event. -/
def heartbeatStep (s : HeartbeatState) : HeartbeatEvent → HeartbeatState
  | .tick => (sendHeartbeat s).1
  | .inbound m =>
    match handleHeartbeatReply s m with
    | some (s', _) => s'
    | none => s
  | .stop => { s with pendingHeartbeatSeq := none }

end RealtimeClient

namespace Server

/-- Server-side ChannelMember (ChannelManager.ts): the link is identified by
its clientId (writes to `member.ws` are recorded against this id). -/
structure ChannelMember where
  clientId : String
  joinSeq : String
  config : ChannelConfig

/-- A server channel: topic plus the insertion-ordered clientId → member map. -/
structure ServerChannel where
  topic : String
  members : List (String × ChannelMember)

/-- ChannelManager: the topic → channel map. -/
structure ChannelManager where
  channels : List (String × ServerChannel)

/-- Map read by key (JS Map.get). -/
def mapGet {β : Type} : List (String × β) → String → Option β
  | [], _ => none
  | (k, v) :: rest, key => if k = key then some v else mapGet rest key

/-- Map write by key (JS Map.set): replace in place or append. -/
def mapSet {β : Type} : List (String × β) → String → β → List (String × β)
  | [], key, value => [(key, value)]
  | (k, v) :: rest, key, value =>
    if k = key then (key, value) :: rest else (k, v) :: mapSet rest key value

/-- ChannelManager.getMember. -/
def getMember (cm : ChannelManager) (topic clientId : String) : Option ChannelMember :=
  match mapGet cm.channels topic with
  | none => none
  | some channel => mapGet channel.members clientId

/-- ChannelManager.getMembers: the channel's members in insertion order. -/
def getMembers (cm : ChannelManager) (topic : String) : List ChannelMember :=
  match mapGet cm.channels topic with
  | none => []
  | some channel => channel.members.map (fun kv => kv.2)

/-- ChannelManager.join: get or create the channel, reject when the clientId
is already a member, else register the member built from the join payload's
defaulted config. -/
def join (cm : ChannelManager) (topic clientId joinSeq : String) (config : ChannelConfig) :
    ChannelManager × Bool × Option String :=
  let channel := (mapGet cm.channels topic).getD { topic := topic, members := [] }
  if (mapGet channel.members clientId).isSome then
    (cm, false, some "Already joined this channel")
  else
    let member : ChannelMember := { clientId := clientId, joinSeq := joinSeq, config := config }
    let channel := { channel with members := mapSet channel.members clientId member }
    ({ channels := mapSet cm.channels topic channel }, true, none)

/-- Server presence entry (PresenceManager.ts). -/
structure PresenceEntry where
  clientId : String
  key : String
  presenceRef : String
  meta : Json

/-- PresenceManager fields: topic → (key → entries) plus the ref counter. -/
structure PresenceManager where
  presences : List (String × List (String × List PresenceEntry))
  presenceRefCounter : Nat

/-- PresenceManager.formatPresences: strip the owner, keep `{presence_ref, meta}`. -/
def formatPresences (entries : List PresenceEntry) : List (Presence Json) :=
  entries.map (fun e => { presence_ref := e.presenceRef, meta := e.meta })

/-- PresenceManager.getState: the formatted full snapshot for a topic. -/
def getState (pm : PresenceManager) (topic : String) : PresenceState Json :=
  match mapGet pm.presences topic with
  | none => []
  | some channelPresences => channelPresences.map (fun kv => (kv.1, formatPresences kv.2))

/-- PresenceManager.sendState: the `presence_state` frame (null seq and
join_seq) written to one link. -/
def sendStateFrame (pm : PresenceManager) (topic : String) : Message :=
  { join_seq := none, seq := none, topic := topic
    event := "presence_state", payload := .presenceState (getState pm topic) }

/-- createReply (serializer.ts) at the engine level: a `chan:reply` frame
echoing the request seq. -/
def createReply (seq : Option String) (topic : String) (status : ReplyStatus)
    (response : ReplyResponse) : Message :=
  { join_seq := none, seq := seq, topic := topic
    event := "chan:reply", payload := .reply { status := status, response := response } }

/-- Outcome of a JwtVerifier.verify call (auth/JwtVerifier interface). -/
structure VerifyResult where
  valid : Bool
  payload : Option Json
  error : Option String := none
  errorCode : Option String := none

/-- The JWT verifier collaborator: token verification and the channel ACL. -/
structure JwtVerifier where
  verify : String → VerifyResult
  canAccessChannel : Json → String → Bool

/-- Result of the chan:join branch of handleMessage: the updated registry and
the frames written to the joining link, in order. -/
structure JoinOutcome where
  cm : ChannelManager
  replies : List Message

/-- The chan:join branch of handleMessage (server index.ts): verify the token
when auth is enabled (missing token, invalid token, and ACL failure each reply
error with a code); then delegate to ChannelManager.join; on failure reply
error with its reason; on success reply ok and immediately send the presence
state snapshot to the joining link. -/
def handleJoin (jwtVerifier : Option JwtVerifier) (cm : ChannelManager) (pm : PresenceManager)
    (clientId topic : String) (seq : Option String) (accessToken : Option String)
    (config : ChannelConfig) : JoinOutcome :=
  match jwtVerifier with
  | some verifier =>
    match accessToken with
    | none =>
      { cm := cm
        replies := [createReply seq topic .error
          { reason := some "Access token required", code := some "AUTH_TOKEN_REQUIRED" }] }
    | some token =>
      let verifyResult := verifier.verify token
      if ¬ verifyResult.valid then
        { cm := cm
          replies := [createReply seq topic .error
            { reason := verifyResult.error, code := verifyResult.errorCode }] }
      else if ¬ verifier.canAccessChannel (verifyResult.payload.getD Json.null) topic then
        { cm := cm
          replies := [createReply seq topic .error
            { reason := some "Access denied to this channel", code := some "AUTH_CHANNEL_DENIED" }] }
      else
        handleJoinAfterAuth cm pm clientId topic seq config
  | none => handleJoinAfterAuth cm pm clientId topic seq config
where
  /-- The part of the chan:join branch after authentication. -/
  handleJoinAfterAuth (cm : ChannelManager) (pm : PresenceManager) (clientId topic : String)
      (seq : Option String) (config : ChannelConfig) : JoinOutcome :=
    let result := join cm topic clientId (seq.getD "0") config
    if result.2.1 then
      { cm := result.1
        replies := [createReply seq topic .ok {}, sendStateFrame pm topic] }
    else
      { cm := cm
        replies := [createReply seq topic .error { reason := result.2.2 }] }

/-- JS truthiness of the `seq` field (string or null): non-null and non-empty. -/
def seqTruthy : Option String → Bool
  | some s => s ≠ ""
  | none => false

/-- Result record of BroadcastHandler.broadcast. -/
structure BroadcastResult where
  success : Bool
  error : Option String := none
  recipientCount : Option Nat := none

/-- Fan-out record: the frame serialized once, the members the server
attempted to write to (in membership order, the sender skipped unless `self`),
and the subset whose link write succeeded (`wsOk` models whether `ws.send`
throws for a given member; a failure is logged and the loop continues). -/
structure FanOut where
  result : BroadcastResult
  frame : Message
  attempts : List String
  delivered : List String

/-- BroadcastHandler.broadcast: error when the topic has no members; otherwise
build the frame with null seq and join_seq and the sender's payload, write it
to each member except the sender when `self` is false, count successful
writes, and succeed regardless of individual write failures. -/
def broadcast (cm : ChannelManager) (topic senderId : String) (p : BroadcastPayload)
    (self : Bool) (wsOk : String → Bool) : FanOut :=
  let members := getMembers cm topic
  let frame : Message :=
    { join_seq := none, seq := none, topic := topic, event := "broadcast", payload := .broadcast p }
  if members.isEmpty then
    { result := { success := false, error := some "Channel not found or empty" }
      frame := frame, attempts := [], delivered := [] }
  else
    let attempts := (members.filter (fun m => self || m.clientId != senderId)).map
      (fun m => m.clientId)
    let delivered := attempts.filter wsOk
    { result := { success := true, recipientCount := some delivered.length }
      frame := frame, attempts := attempts, delivered := delivered }

/-- Result of the broadcast branch of handleMessage: the fan-out performed (if
membership held) and the replies written back to the sender. -/
structure BroadcastOutcome where
  fanout : Option FanOut
  replies : List Message

/-- The broadcast branch of handleMessage (server index.ts): require
membership, fan out with the sender's stored `broadcast.self`, and send an ack
reply only when the sender's stored config has `broadcast.ack` and the frame
carried a truthy seq. -/
def handleBroadcast (cm : ChannelManager) (clientId topic : String) (seq : Option String)
    (p : BroadcastPayload) (wsOk : String → Bool) : BroadcastOutcome :=
  match getMember cm topic clientId with
  | none =>
    { fanout := none
      replies := [createReply seq topic .error { reason := some "Not joined to channel" }] }
  | some member =>
    let fanout := broadcast cm topic clientId p member.config.broadcast.self wsOk
    let replies :=
      if member.config.broadcast.ack && seqTruthy seq then
        [if fanout.result.success then
          createReply seq topic .ok { recipientCount := fanout.result.recipientCount }
        else
          createReply seq topic .error { reason := fanout.result.error }]
      else []
    { fanout := some fanout, replies := replies }

end Server

/-- A concrete server-side member who opted into broadcast acks. -/
def sampleAckMember : Server.ChannelMember :=
  { clientId := "A", joinSeq := "1"
    config := { broadcast := { self := false, ack := true }
                presence := { key := "", enabled := false } } }

/-- A concrete channel registry holding topic "t" with the single member "A". -/
def sampleCm : Server.ChannelManager :=
  { channels := [("t", { topic := "t", members := [("A", sampleAckMember)] })] }

/-- A concrete channel whose subscribe has not completed (state joining),
default config, empty pre-join buffer. Used to evaluate theorems. -/
def sampleJoiningChannel : RealtimeChannel.Channel :=
  { topic := "room:1", state := ChannelState.joining, joinSeq := none, pushBuffer := []
    trackedPresenceMeta := none
    config := { broadcast := { self := false, ack := false }
                presence := { key := "", enabled := false } }
    wasJoined := false }

/-! Theorems. Helper lemmas come first, then one theorem per claim (with its
witness or counterexample where required). -/

theorem wellFormedRaw_arr (xs : List Json) :
    Serializer.WellFormedRaw (Json.arr xs) ↔ xs.length = 5 := by
  constructor
  · rintro ⟨elems, heq, hlen⟩
    injection heq with h
    subst h
    exact hlen
  · intro h
    exact ⟨xs, rfl, h⟩

/-- C9: for every frame, decoding the encoded raw array restores the frame
field for field; and decode returns the drop-frame signal (none) exactly when
the input is not valid JSON (none), not a JSON array, or not an array of
length 5. -/
theorem claim_C9_frame_roundtrip :
    (∀ m : Serializer.Message, Serializer.decode (some (Serializer.encode m)) = some m) ∧
    (∀ data : Option Json, Serializer.decode data = none ↔
      data = none ∨ ∃ raw, data = some raw ∧ ¬ Serializer.WellFormedRaw raw) := by
  constructor
  · intro m
    cases m
    rfl
  · intro data
    cases data with
    | none => simp [Serializer.decode]
    | some raw =>
      cases raw with
      | null => simp [Serializer.decode, Serializer.WellFormedRaw]
      | bool b => simp [Serializer.decode, Serializer.WellFormedRaw]
      | num n => simp [Serializer.decode, Serializer.WellFormedRaw]
      | str s => simp [Serializer.decode, Serializer.WellFormedRaw]
      | obj fields => simp [Serializer.decode, Serializer.WellFormedRaw]
      | arr elems =>
        rcases elems with _ | ⟨a, _ | ⟨b, _ | ⟨c, _ | ⟨d, _ | ⟨e, _ | ⟨f, rest⟩⟩⟩⟩⟩⟩ <;>
          simp [Serializer.decode, wellFormedRaw_arr]

/-- C9 witness: the round trip and the drop-frame equivalence evaluated at
concrete frames. -/
theorem claim_C9_witness :
    Serializer.decode (some (Serializer.encode
        ⟨Json.null, Json.str "1", Json.str "room:1", Json.str "broadcast", Json.num 7⟩)) =
      some ⟨Json.null, Json.str "1", Json.str "room:1", Json.str "broadcast", Json.num 7⟩ ∧
    Serializer.decode (some (Json.arr [Json.null, Json.null])) = none :=
  ⟨claim_C9_frame_roundtrip.1 _, by
    have h := (claim_C9_frame_roundtrip.2 (some (Json.arr [Json.null, Json.null]))).2
    exact h (Or.inr ⟨_, rfl, by rw [wellFormedRaw_arr]; simp⟩)⟩

theorem push_foldl_disconnected {α : Type} (ms : List α) (buf wire : List α) :
    ms.foldl RealtimeClient.push ⟨false, buf, wire⟩ = ⟨false, buf ++ ms, wire⟩ := by
  induction ms generalizing buf with
  | nil => simp
  | cons m rest ih =>
    have hstep : RealtimeClient.push (⟨false, buf, wire⟩ : RealtimeClient.SendState α) m =
        ⟨false, buf ++ [m], wire⟩ := by
      simp [RealtimeClient.push]
    simp only [List.foldl_cons, hstep, ih, List.append_assoc, List.singleton_append]

theorem flushSendBuffer_connected {α : Type} (buf wire : List α) :
    RealtimeClient.flushSendBuffer ⟨true, buf, wire⟩ = ⟨true, [], wire ++ buf⟩ := by
  induction buf generalizing wire with
  | nil => simp [RealtimeClient.flushSendBuffer]
  | cons m rest ih =>
    rw [RealtimeClient.flushSendBuffer]
    simp only [if_pos]
    simpa [List.append_assoc] using ih (wire ++ [m])

theorem flushSendBuffer_disconnected {α : Type} (s : RealtimeClient.SendState α)
    (h : s.connected = false) : RealtimeClient.flushSendBuffer s = s := by
  rw [RealtimeClient.flushSendBuffer]
  cases hb : s.sendBuffer with
  | nil => rfl
  | cons m rest => simp [h]

/-- C1 amended: while the link is not connected, push appends the send closure
to the send buffer with no size bound applied (a sequence of pushes extends
the buffer FIFO by the whole sequence), and flushing is a no-op; while
connected, push writes through and flushing drains the buffer to the wire in
FIFO order until it is empty. -/
theorem claim_C1_amended {α : Type} (s : RealtimeClient.SendState α) (ms : List α) (m : α) :
    (s.connected = false →
      RealtimeClient.push s m = { s with sendBuffer := s.sendBuffer ++ [m] } ∧
      (ms.foldl RealtimeClient.push s).sendBuffer = s.sendBuffer ++ ms ∧
      RealtimeClient.flushSendBuffer s = s) ∧
    (s.connected = true →
      RealtimeClient.push s m = { s with wire := s.wire ++ [m] } ∧
      RealtimeClient.flushSendBuffer s =
        { s with sendBuffer := [], wire := s.wire ++ s.sendBuffer }) := by
  obtain ⟨c, buf, wire⟩ := s
  constructor
  · intro hc
    subst hc
    refine ⟨by simp [RealtimeClient.push], ?_, flushSendBuffer_disconnected _ rfl⟩
    rw [push_foldl_disconnected]
  · intro hc
    subst hc
    exact ⟨by simp [RealtimeClient.push], flushSendBuffer_connected buf wire⟩

/-- C1 witness: the amended statement evaluated on a concrete disconnected
buffer and a concrete connected flush. -/
theorem claim_C1_witness :
    RealtimeClient.push (⟨false, [0], []⟩ : RealtimeClient.SendState Nat) 1 =
      ⟨false, [0, 1], []⟩ ∧
    RealtimeClient.flushSendBuffer (⟨true, [0, 1], [5]⟩ : RealtimeClient.SendState Nat) =
      ⟨true, [], [5, 0, 1]⟩ :=
  ⟨((claim_C1_amended ⟨false, [0], []⟩ [] 1).1 rfl).1,
    ((claim_C1_amended ⟨true, [0, 1], [5]⟩ [] 0).2 rfl).2⟩

/-- C1 counterexample: 1001 pushes while disconnected leave 1001 entries in
the send buffer, exceeding the 1000-entry bound the claim asserts (the
MAX_SEND_BUFFER_SIZE constant is declared but RealtimeClient.push never
consults it). -/
theorem claim_C1_counterexample :
    ((List.replicate 1001 (0 : Nat)).foldl RealtimeClient.push
        ⟨false, [], []⟩).sendBuffer.length = 1001 ∧
      1001 > MAX_SEND_BUFFER_SIZE := by
  constructor
  · rw [push_foldl_disconnected, List.nil_append, List.length_replicate]
  · decide

/-- C10: send, track and untrack on a channel that is not joined resolve
immediately with the "Channel not joined" error, push nothing to the socket,
and leave the channel record (state, stored presence meta, buffer) unchanged. -/
theorem claim_C10_not_joined_rejects (ch : RealtimeChannel.Channel) (meta payload : Json)
    (event : String) (h : ch.state ≠ ChannelState.joined) :
    RealtimeChannel.track ch meta =
      ⟨ch, some { status := "error", reason := some "Channel not joined" }, []⟩ ∧
    RealtimeChannel.untrack ch =
      ⟨ch, some { status := "error", reason := some "Channel not joined" }, []⟩ ∧
    RealtimeChannel.send ch event payload =
      ⟨ch, some { status := "error", reason := some "Channel not joined" }, []⟩ := by
  refine ⟨?_, ?_, ?_⟩ <;>
    simp [RealtimeChannel.track, RealtimeChannel.untrack, RealtimeChannel.send, h]

/-- C10 witness: the rejection evaluated on a concrete joining channel. -/
theorem claim_C10_witness :
    RealtimeChannel.track sampleJoiningChannel Json.null =
      ⟨sampleJoiningChannel, some { status := "error", reason := some "Channel not joined" },
        []⟩ :=
  (claim_C10_not_joined_rejects sampleJoiningChannel Json.null Json.null "msg"
    (by decide)).1

/-- C2 counterexample: track invoked while the channel is still joining (the
claim's own example) resolves with an error and queues nothing; the pre-join
buffer stays empty instead of receiving the request. -/
theorem claim_C2_counterexample :
    (RealtimeChannel.track sampleJoiningChannel Json.null).channel.pushBuffer = [] ∧
    (RealtimeChannel.track sampleJoiningChannel Json.null).outbound = [] ∧
    (RealtimeChannel.track sampleJoiningChannel Json.null).response =
      some { status := "error", reason := some "Channel not joined" } := by
  refine ⟨?_, ?_, ?_⟩ <;> simp [RealtimeChannel.track, sampleJoiningChannel]

/-- C2 amended: request operations invoked while the channel is not joined
resolve immediately with an error and are never enqueued; the channel's
pre-join buffer mechanism itself (pushToBuffer, bounded at 100 dropping the
oldest; flushPushBuffer draining FIFO once joined) exists but request
operations do not feed it. -/
theorem claim_C2_amended (ch : RealtimeChannel.Channel) (p : RealtimeChannel.ChanPush)
    (meta payload : Json) (event : String) :
    (ch.state ≠ ChannelState.joined →
      (RealtimeChannel.track ch meta).channel.pushBuffer = ch.pushBuffer ∧
      (RealtimeChannel.track ch meta).outbound = [] ∧
      (RealtimeChannel.untrack ch).channel.pushBuffer = ch.pushBuffer ∧
      (RealtimeChannel.untrack ch).outbound = [] ∧
      (RealtimeChannel.send ch event payload).channel.pushBuffer = ch.pushBuffer ∧
      (RealtimeChannel.send ch event payload).outbound = []) ∧
    (ch.pushBuffer.length ≤ MAX_PUSH_BUFFER_SIZE →
      (RealtimeChannel.pushToBuffer ch p).pushBuffer.length ≤ MAX_PUSH_BUFFER_SIZE) ∧
    (ch.pushBuffer.length < MAX_PUSH_BUFFER_SIZE →
      (RealtimeChannel.pushToBuffer ch p).pushBuffer = ch.pushBuffer ++ [p]) ∧
    (ch.pushBuffer.length ≥ MAX_PUSH_BUFFER_SIZE →
      (RealtimeChannel.pushToBuffer ch p).pushBuffer = ch.pushBuffer.tail ++ [p]) ∧
    (ch.state = ChannelState.joined →
      RealtimeChannel.flushPushBuffer ch = ({ ch with pushBuffer := [] }, ch.pushBuffer)) ∧
    (ch.state ≠ ChannelState.joined →
      RealtimeChannel.flushPushBuffer ch = (ch, [])) := by
  refine ⟨?_, ?_, ?_, ?_, ?_, ?_⟩
  · intro h
    refine ⟨?_, ?_, ?_, ?_, ?_, ?_⟩ <;>
      simp [RealtimeChannel.track, RealtimeChannel.untrack, RealtimeChannel.send, h]
  · intro h
    by_cases hge : ch.pushBuffer.length ≥ MAX_PUSH_BUFFER_SIZE
    · simp only [RealtimeChannel.pushToBuffer, if_pos hge, List.length_append,
        List.length_tail, List.length_singleton]
      simp only [MAX_PUSH_BUFFER_SIZE] at *
      omega
    · simp only [RealtimeChannel.pushToBuffer, if_neg hge, List.length_append,
        List.length_singleton]
      simp only [MAX_PUSH_BUFFER_SIZE] at *
      omega
  · intro h
    have hlt : ¬ ch.pushBuffer.length ≥ MAX_PUSH_BUFFER_SIZE := by omega
    simp [RealtimeChannel.pushToBuffer, hlt]
  · intro h
    simp [RealtimeChannel.pushToBuffer, h]
  · intro h
    simp [RealtimeChannel.flushPushBuffer, h]
  · intro h
    simp [RealtimeChannel.flushPushBuffer, h]

/-- C2 witness: the amended statement on a concrete joining channel, a full
buffer, and a joined flush. -/
theorem claim_C2_witness :
    (RealtimeChannel.track sampleJoiningChannel (Json.num 3)).outbound = [] ∧
    (RealtimeChannel.pushToBuffer
        { sampleJoiningChannel with
            pushBuffer := List.replicate 100 ⟨"presence", Payload.empty⟩ }
        ⟨"broadcast", Payload.empty⟩).pushBuffer.length ≤ MAX_PUSH_BUFFER_SIZE ∧
    RealtimeChannel.flushPushBuffer
        { sampleJoiningChannel with state := ChannelState.joined } =
      ({ sampleJoiningChannel with state := ChannelState.joined }, []) :=
  ⟨((claim_C2_amended sampleJoiningChannel ⟨"x", Payload.empty⟩ (Json.num 3) Json.null
      "e").1 (by decide)).2.1,
    by
      have h := (claim_C2_amended
        { sampleJoiningChannel with
            pushBuffer := List.replicate 100 ⟨"presence", Payload.empty⟩ }
        ⟨"broadcast", Payload.empty⟩ Json.null Json.null "e").2.1
      exact h (by simp [MAX_PUSH_BUFFER_SIZE]),
    by
      have h := (claim_C2_amended
        { sampleJoiningChannel with state := ChannelState.joined }
        ⟨"x", Payload.empty⟩ Json.null Json.null "e").2.2.2.2.1
      simpa [sampleJoiningChannel] using h rfl⟩

/-- C5: an error reply to chan:join moves the channel to errored and fires the
subscribe callback with CHANNEL_ERROR; the rejoin timer is armed exactly when
the error code does not begin with "AUTH_" (a missing code arms it); a join
reply timeout, received while still joining, likewise moves the channel to
errored, fires TIMED_OUT, and arms the rejoin timer. -/
theorem claim_C5_join_error_handling (ch : RealtimeChannel.Channel)
    (response : ReplyResponse) :
    ((RealtimeChannel.joinErrorHook ch response).channel.state = ChannelState.errored ∧
      (RealtimeChannel.joinErrorHook ch response).callbackEvent =
        some SubscribeState.CHANNEL_ERROR) ∧
    ((RealtimeChannel.joinErrorHook ch response).rejoinScheduled = true ↔
      ¬ ∃ code, response.code = some code ∧ strStartsWith code "AUTH_" = true) ∧
    (ch.state = ChannelState.joining →
      RealtimeChannel.joinTimeoutHook ch =
        { channel := { ch with state := ChannelState.errored }
          callbackEvent := some SubscribeState.TIMED_OUT
          rejoinScheduled := true }) := by
  refine ⟨⟨rfl, rfl⟩, ?_, ?_⟩
  · cases hcode : response.code with
    | none => simp [RealtimeChannel.joinErrorHook, hcode]
    | some code => simp [RealtimeChannel.joinErrorHook, hcode]
  · intro h
    simp [RealtimeChannel.joinTimeoutHook, h]

/-- C5 witness: an AUTH_ coded error reply leaves the rejoin timer unarmed, a
non-auth error arms it, and a timeout while joining errors the channel and
arms the timer. -/
theorem claim_C5_witness :
    (RealtimeChannel.joinErrorHook sampleJoiningChannel
        { reason := some "Token has expired", code := some "AUTH_EXPIRED" }).rejoinScheduled
      = false ∧
    (RealtimeChannel.joinErrorHook sampleJoiningChannel
        { reason := some "full", code := some "CHANNEL_FULL" }).rejoinScheduled = true ∧
    RealtimeChannel.joinTimeoutHook sampleJoiningChannel =
      { channel := { sampleJoiningChannel with state := ChannelState.errored }
        callbackEvent := some SubscribeState.TIMED_OUT
        rejoinScheduled := true } := by
  refine ⟨?_, ?_, ?_⟩
  · have h := (claim_C5_join_error_handling sampleJoiningChannel
      { reason := some "Token has expired", code := some "AUTH_EXPIRED" }).2.1
    have hneg : ¬ ((RealtimeChannel.joinErrorHook sampleJoiningChannel
        { reason := some "Token has expired", code := some "AUTH_EXPIRED" }).rejoinScheduled
          = true) := by
      intro htrue
      exact (h.mp htrue) ⟨"AUTH_EXPIRED", rfl, by decide⟩
    simpa using hneg
  · exact (claim_C5_join_error_handling sampleJoiningChannel
      { reason := some "full", code := some "CHANNEL_FULL" }).2.1.mpr
      (by rintro ⟨code, hcode, hsw⟩; cases hcode; exact absurd hsw (by decide))
  · exact (claim_C5_join_error_handling sampleJoiningChannel
      { reason := none, code := none }).2.2 rfl

theorem outstandingProbes_le_one (s : RealtimeClient.HeartbeatState) :
    RealtimeClient.outstandingProbes s ≤ 1 := by
  cases h : s.pendingHeartbeatSeq <;> simp [RealtimeClient.outstandingProbes, h]

/-- C6: the client tracks at most one outstanding heartbeat probe along any
event sequence; an interval tick while a probe is outstanding sends no new
probe, reports timeout to the status hook, and closes the link with
(1000, "heartbeat timeout"); a tick with no outstanding probe sends exactly
one probe on the system topic with a fresh seq and records it; and a reply on
the system topic matching the pending seq clears the probe and reports ok. -/
theorem claim_C6_heartbeat_discipline (s : RealtimeClient.HeartbeatState) (m : Message)
    (x : String) :
    (∀ evs : List RealtimeClient.HeartbeatEvent,
      RealtimeClient.outstandingProbes
        (evs.foldl RealtimeClient.heartbeatStep s) ≤ 1) ∧
    (s.connected = true → s.pendingHeartbeatSeq = some x →
      RealtimeClient.sendHeartbeat s =
        (s, { status := some RealtimeClient.HeartbeatStatus.timeout
              closeCall := some (WS_CLOSE_NORMAL, "heartbeat timeout")
              pushedFrames := [] }) ∧ WS_CLOSE_NORMAL = 1000) ∧
    (s.connected = true → s.pendingHeartbeatSeq = none →
      RealtimeClient.sendHeartbeat s =
        ({ s with seqCounter := s.seqCounter + 1
                  pendingHeartbeatSeq := some (toString (s.seqCounter + 1)) },
          { status := some RealtimeClient.HeartbeatStatus.sent
            closeCall := none
            pushedFrames := [{ join_seq := none, seq := some (toString (s.seqCounter + 1))
                               topic := SYSTEM_TOPIC, event := "heartbeat"
                               payload := Payload.empty }] })) ∧
    (m.topic = SYSTEM_TOPIC → m.event = "chan:reply" → m.seq = s.pendingHeartbeatSeq →
      RealtimeClient.handleHeartbeatReply s m =
        some ({ s with pendingHeartbeatSeq := none }, RealtimeClient.HeartbeatStatus.ok)) := by
  refine ⟨?_, ?_, ?_, ?_⟩
  · intro evs
    exact outstandingProbes_le_one _
  · intro hc hp
    exact ⟨by simp [RealtimeClient.sendHeartbeat, hc, hp], rfl⟩
  · intro hc hp
    simp [RealtimeClient.sendHeartbeat, hc, hp, RealtimeClient.makeSeq]
  · intro ht he hs
    simp [RealtimeClient.handleHeartbeatReply, ht, he, hs]

/-- C6 witness: the busy tick, the fresh probe and the matching reply
evaluated on concrete heartbeat states. -/
theorem claim_C6_witness :
    RealtimeClient.sendHeartbeat { connected := true, seqCounter := 3
                                   pendingHeartbeatSeq := some "3" } =
      ({ connected := true, seqCounter := 3, pendingHeartbeatSeq := some "3" },
        { status := some RealtimeClient.HeartbeatStatus.timeout
          closeCall := some (1000, "heartbeat timeout"), pushedFrames := [] }) ∧
    RealtimeClient.handleHeartbeatReply
        { connected := true, seqCounter := 3, pendingHeartbeatSeq := some "3" }
        { join_seq := none, seq := some "3", topic := SYSTEM_TOPIC
          event := "chan:reply", payload := Payload.empty } =
      some ({ connected := true, seqCounter := 3, pendingHeartbeatSeq := none },
        RealtimeClient.HeartbeatStatus.ok) :=
  ⟨((claim_C6_heartbeat_discipline
        { connected := true, seqCounter := 3, pendingHeartbeatSeq := some "3" }
        { join_seq := none, seq := some "3", topic := SYSTEM_TOPIC
          event := "chan:reply", payload := Payload.empty } "3").2.1 rfl rfl).1,
    (claim_C6_heartbeat_discipline
        { connected := true, seqCounter := 3, pendingHeartbeatSeq := some "3" }
        { join_seq := none, seq := some "3", topic := SYSTEM_TOPIC
          event := "chan:reply", payload := Payload.empty } "3").2.2.2 rfl rfl rfl⟩

theorem mapGet_mapSet_self {β : Type} (l : List (String × β)) (k : String) (v : β) :
    Server.mapGet (Server.mapSet l k v) k = some v := by
  induction l with
  | nil => simp [Server.mapSet, Server.mapGet]
  | cons kv rest ih =>
    obtain ⟨k', v'⟩ := kv
    by_cases h : k' = k
    · simp [Server.mapSet, Server.mapGet, h]
    · simp [Server.mapSet, Server.mapGet, h, ih]

theorem join_member_guard (cm : Server.ChannelManager) (topic clientId : String) :
    Server.mapGet ((Server.mapGet cm.channels topic).getD
        { topic := topic, members := [] }).members clientId =
      Server.getMember cm topic clientId := by
  unfold Server.getMember
  cases h : Server.mapGet cm.channels topic <;> simp [Server.mapGet]

theorem getMembers_ne_nil_of_getMember (cm : Server.ChannelManager) (topic clientId : String)
    (member : Server.ChannelMember) (h : Server.getMember cm topic clientId = some member) :
    Server.getMembers cm topic ≠ [] := by
  unfold Server.getMember at h
  unfold Server.getMembers
  cases hc : Server.mapGet cm.channels topic with
  | none => simp [hc] at h
  | some channel =>
    simp only [hc] at h ⊢
    cases hm : channel.members with
    | nil => rw [hm] at h; exact absurd h (by simp [Server.mapGet])
    | cons kv rest => simp [hm]

/-- C3: the chan:join branch verifies the token when auth is enabled (missing
token, invalid token, and a failed channel ACL each produce an error reply
carrying a code, leaving the registry untouched); with authentication passed
(or disabled) an already-joined client gets an error reply; otherwise the
member is registered with the request's seq as its join sequence and the
server replies ok followed immediately by the presence_state snapshot sent to
the joining link only (in particular whenever presence is enabled for this
subscription). -/
theorem claim_C3_join_handling (verifier : Server.JwtVerifier) (cm : Server.ChannelManager)
    (pm : Server.PresenceManager) (clientId topic : String) (seq : Option String)
    (token : String) (anyTok : Option String) (config : ChannelConfig)
    (member : Server.ChannelMember) :
    (Server.handleJoin (some verifier) cm pm clientId topic seq none config =
      { cm := cm
        replies := [Server.createReply seq topic ReplyStatus.error
          { reason := some "Access token required", code := some "AUTH_TOKEN_REQUIRED" }] }) ∧
    ((verifier.verify token).valid = false →
      Server.handleJoin (some verifier) cm pm clientId topic seq (some token) config =
        { cm := cm
          replies := [Server.createReply seq topic ReplyStatus.error
            { reason := (verifier.verify token).error
              code := (verifier.verify token).errorCode }] }) ∧
    ((verifier.verify token).valid = true →
      verifier.canAccessChannel ((verifier.verify token).payload.getD Json.null) topic = false →
      Server.handleJoin (some verifier) cm pm clientId topic seq (some token) config =
        { cm := cm
          replies := [Server.createReply seq topic ReplyStatus.error
            { reason := some "Access denied to this channel"
              code := some "AUTH_CHANNEL_DENIED" }] }) ∧
    ((verifier.verify token).valid = true →
      verifier.canAccessChannel ((verifier.verify token).payload.getD Json.null) topic = true →
      Server.handleJoin (some verifier) cm pm clientId topic seq (some token) config =
        Server.handleJoin none cm pm clientId topic seq anyTok config) ∧
    (Server.getMember cm topic clientId = some member →
      Server.handleJoin none cm pm clientId topic seq anyTok config =
        { cm := cm
          replies := [Server.createReply seq topic ReplyStatus.error
            { reason := some "Already joined this channel" }] }) ∧
    (Server.getMember cm topic clientId = none →
      (Server.handleJoin none cm pm clientId topic seq anyTok config).replies =
        [Server.createReply seq topic ReplyStatus.ok {}, Server.sendStateFrame pm topic] ∧
      Server.getMember (Server.handleJoin none cm pm clientId topic seq anyTok config).cm
          topic clientId =
        some { clientId := clientId, joinSeq := seq.getD "0", config := config } ∧
      (config.presence.enabled = true →
        Server.sendStateFrame pm topic ∈
          (Server.handleJoin none cm pm clientId topic seq anyTok config).replies)) := by
  refine ⟨rfl, ?_, ?_, ?_, ?_, ?_⟩
  · intro hv
    simp [Server.handleJoin, hv]
  · intro hv hacc
    simp [Server.handleJoin, hv, hacc]
  · intro hv hacc
    simp [Server.handleJoin, hv, hacc]
  · intro hmem
    have hguard := join_member_guard cm topic clientId
    simp [Server.handleJoin, Server.handleJoin.handleJoinAfterAuth, Server.join,
      hguard, hmem]
  · intro hmem
    have hguard := join_member_guard cm topic clientId
    have hnone : (Server.mapGet ((Server.mapGet cm.channels topic).getD
        { topic := topic, members := [] }).members clientId).isSome = false := by
      rw [hguard, hmem]
      rfl
    refine ⟨?_, ?_, ?_⟩
    · simp [Server.handleJoin, Server.handleJoin.handleJoinAfterAuth, Server.join, hnone]
    · simp only [Server.handleJoin, Server.handleJoin.handleJoinAfterAuth, Server.join,
        hnone, Bool.false_eq_true, if_false, if_true]
      unfold Server.getMember
      simp [mapGet_mapSet_self]
    · intro _
      simp [Server.handleJoin, Server.handleJoin.handleJoinAfterAuth, Server.join, hnone]

/-- C3 witness: an invalid token is rejected with its code, and a fresh join
on an empty registry registers the member and sends ok plus the snapshot. -/
theorem claim_C3_witness :
    Server.handleJoin
        (some { verify := fun _ => { valid := false, payload := none
                                     error := some "Invalid token"
                                     errorCode := some "AUTH_INVALID" }
                canAccessChannel := fun _ _ => true })
        { channels := [] } { presences := [], presenceRefCounter := 0 }
        "A" "t" (some "7") (some "bad")
        { broadcast := { self := false, ack := false }
          presence := { key := "", enabled := true } } =
      { cm := { channels := [] }
        replies := [Server.createReply (some "7") "t" ReplyStatus.error
          { reason := some "Invalid token", code := some "AUTH_INVALID" }] } ∧
    Server.getMember
        (Server.handleJoin none { channels := [] }
          { presences := [], presenceRefCounter := 0 } "A" "t" (some "7") none
          { broadcast := { self := false, ack := false }
            presence := { key := "", enabled := true } }).cm "t" "A" =
      some { clientId := "A", joinSeq := "7"
             config := { broadcast := { self := false, ack := false }
                         presence := { key := "", enabled := true } } } :=
  ⟨(claim_C3_join_handling _ { channels := [] }
      { presences := [], presenceRefCounter := 0 } "A" "t" (some "7") "bad" none _
      sampleAckMember).2.1 rfl,
    ((claim_C3_join_handling
        { verify := fun _ => { valid := true, payload := none }
          canAccessChannel := fun _ _ => true }
        { channels := [] } { presences := [], presenceRefCounter := 0 } "A" "t"
        (some "7") "x" none _ sampleAckMember).2.2.2.2.2 rfl).2.1⟩

/-- C4 amended: a broadcast from a non-member draws an error reply and no
fan-out; from a member, the frame (null seq and join_seq, the sender's payload
verbatim) is written to every member except the sender when the sender's
stored broadcast.self is false and to every member when it is true; write
failures do not abort the fan-out (the attempted recipients are independent of
which writes succeed, and the fan-out result is success); and a reply — with
status ok and the recipient count — is sent to the sender if and only if the
sender opted into broadcast.ack and the frame carried a non-null, non-empty
seq. -/
theorem claim_C4_broadcast_fanout (cm : Server.ChannelManager) (clientId topic : String)
    (seq : Option String) (p : BroadcastPayload) (wsOk : String → Bool)
    (member : Server.ChannelMember) :
    (Server.getMember cm topic clientId = none →
      Server.handleBroadcast cm clientId topic seq p wsOk =
        { fanout := none
          replies := [Server.createReply seq topic ReplyStatus.error
            { reason := some "Not joined to channel" }] }) ∧
    (Server.getMember cm topic clientId = some member →
      (Server.handleBroadcast cm clientId topic seq p wsOk).fanout =
        some (Server.broadcast cm topic clientId p member.config.broadcast.self wsOk) ∧
      ((Server.broadcast cm topic clientId p member.config.broadcast.self wsOk).frame =
        { join_seq := none, seq := none, topic := topic, event := "broadcast"
          payload := Payload.broadcast p }) ∧
      (member.config.broadcast.self = true →
        (Server.broadcast cm topic clientId p member.config.broadcast.self wsOk).attempts =
          (Server.getMembers cm topic).map (fun m => m.clientId)) ∧
      (member.config.broadcast.self = false →
        (Server.broadcast cm topic clientId p member.config.broadcast.self wsOk).attempts =
          ((Server.getMembers cm topic).filter
            (fun m => m.clientId != clientId)).map (fun m => m.clientId)) ∧
      ((Server.broadcast cm topic clientId p member.config.broadcast.self wsOk).delivered =
        (Server.broadcast cm topic clientId p
          member.config.broadcast.self wsOk).attempts.filter wsOk) ∧
      ((Server.broadcast cm topic clientId p
          member.config.broadcast.self wsOk).result.success = true) ∧
      ((Server.handleBroadcast cm clientId topic seq p wsOk).replies ≠ [] ↔
        member.config.broadcast.ack = true ∧ Server.seqTruthy seq = true) ∧
      (member.config.broadcast.ack = true → Server.seqTruthy seq = true →
        (Server.handleBroadcast cm clientId topic seq p wsOk).replies =
          [Server.createReply seq topic ReplyStatus.ok
            { recipientCount := some (Server.broadcast cm topic clientId p
                member.config.broadcast.self wsOk).delivered.length }])) := by
  constructor
  · intro h
    simp [Server.handleBroadcast, h]
  · intro h
    have hne := getMembers_ne_nil_of_getMember cm topic clientId member h
    have hisEmpty : (Server.getMembers cm topic).isEmpty = false := by
      cases hm : Server.getMembers cm topic with
      | nil => exact absurd hm hne
      | cons a rest => rfl
    refine ⟨?_, ?_, ?_, ?_, ?_, ?_, ?_, ?_⟩
    · simp [Server.handleBroadcast, h]
    · simp [Server.broadcast, hisEmpty]
    · intro hself
      simp [Server.broadcast, hisEmpty, hself]
    · intro hself
      simp [Server.broadcast, hisEmpty, hself]
    · simp [Server.broadcast, hisEmpty]
    · simp [Server.broadcast, hisEmpty]
    · constructor
      · intro hrep
        by_cases hcond : member.config.broadcast.ack && Server.seqTruthy seq
        · simp only [Bool.and_eq_true] at hcond
          exact hcond
        · exact absurd (by simp [Server.handleBroadcast, h, hcond]) hrep
      · intro hcond
        have hcond' : (member.config.broadcast.ack && Server.seqTruthy seq) = true := by
          simp [hcond.1, hcond.2]
        simp [Server.handleBroadcast, h, hcond', Server.broadcast, hisEmpty]
    · intro hack hseq
      have hcond' : (member.config.broadcast.ack && Server.seqTruthy seq) = true := by
        simp [hack, hseq]
      simp [Server.handleBroadcast, h, hcond', Server.broadcast, hisEmpty]

/-- C4 witness: the amended statement on the concrete one-member registry —
with a truthy seq the ack-subscribed sender receives the ok reply with the
recipient count, and the fan-out frame carries null seq and join_seq. -/
theorem claim_C4_witness :
    (Server.handleBroadcast sampleCm "A" "t" (some "7") ⟨"msg", Json.null⟩
        (fun _ => true)).replies =
      [Server.createReply (some "7") "t" ReplyStatus.ok { recipientCount := some 0 }] ∧
    (Server.broadcast sampleCm "t" "A" ⟨"msg", Json.null⟩ false (fun _ => true)).frame =
      { join_seq := none, seq := none, topic := "t", event := "broadcast"
        payload := Payload.broadcast ⟨"msg", Json.null⟩ } := by
  have h := (claim_C4_broadcast_fanout sampleCm "A" "t" (some "7") ⟨"msg", Json.null⟩
    (fun _ => true) sampleAckMember).2 (by rfl)
  refine ⟨?_, ?_⟩
  · have := h.2.2.2.2.2.2.2 rfl rfl
    simpa [sampleAckMember, Server.broadcast, Server.getMembers, sampleCm,
      Server.mapGet] using this
  · have := h.2.1
    simpa [sampleAckMember] using this

/-- C4 counterexample: client "A" joined topic "t" having opted into
broadcast.ack, yet its broadcast frame with null seq draws no reply at all —
refuting that an ok reply is sent whenever the sender opted into ack. -/
theorem claim_C4_counterexample :
    (Server.getMember sampleCm "t" "A").map (fun m => m.config.broadcast.ack) =
      some true ∧
    (Server.handleBroadcast sampleCm "A" "t" none ⟨"msg", Json.null⟩
        (fun _ => true)).replies = [] := by
  constructor
  · rfl
  · simp [Server.handleBroadcast, Server.getMember, sampleCm, sampleAckMember,
      Server.mapGet, Server.seqTruthy]

theorem objGet_eq_none_iff {α : Type} (st : PresenceState α) (k : String) :
    objGet st k = none ↔ k ∉ st.map Prod.fst := by
  induction st with
  | nil => simp [objGet]
  | cons kv rest ih =>
    obtain ⟨k', v⟩ := kv
    by_cases h : k' = k
    · subst h
      simp [objGet]
    · simp [objGet, h, ih, Ne.symm h]

theorem objSet_append {α : Type} (st : PresenceState α) (k : String)
    (v : List (Presence α)) (h : objGet st k = none) :
    objSet st k v = st ++ [(k, v)] := by
  induction st with
  | nil => rfl
  | cons kv rest ih =>
    obtain ⟨k', v'⟩ := kv
    by_cases hk : k' = k
    · subst hk
      simp [objGet] at h
    · simp only [objGet, if_neg hk] at h
      simp [objSet, hk, ih h]

theorem applyEntries_leave_nil_state {α : Type} (leaves : PresenceState α) :
    (applyEntries applyLeave ([] : PresenceState α) leaves).1 = [] := by
  induction leaves with
  | nil => rfl
  | cons kv rest ih =>
    have hstep : (applyLeave ([] : PresenceState α) kv).1 = [] := by
      simp [applyLeave, objGet, objDel]
    simp only [applyEntries, hstep, ih]

theorem applyEntries_join_fresh {α : Type} (entries : PresenceState α) :
    ∀ st : PresenceState α, (entries.map Prod.fst).Nodup →
      (∀ k ∈ entries.map Prod.fst, objGet st k = none) →
      (applyEntries applyJoin st entries).1 = st ++ entries := by
  induction entries with
  | nil => intro st _ _; simp [applyEntries]
  | cons kv rest ih =>
    intro st hnodup hfresh
    obtain ⟨k, jp⟩ := kv
    have hk : objGet st k = none := hfresh k (by simp)
    have hstep : (applyJoin st (k, jp)).1 = st ++ [(k, jp)] := by
      simp only [applyJoin, hk]
      simp [objSet_append st k _ hk]
    rw [List.map_cons, List.nodup_cons] at hnodup
    have hfresh' : ∀ k' ∈ rest.map Prod.fst, objGet (st ++ [(k, jp)]) k' = none := by
      intro k' hk'
      rw [objGet_eq_none_iff]
      rw [List.map_append]
      intro hmem
      rcases List.mem_append.mp hmem with hin | hin
      · exact (objGet_eq_none_iff st k').mp (hfresh k' (by simp [hk'])) hin
      · simp at hin
        exact hnodup.1 (hin ▸ hk')
    simp only [applyEntries, hstep]
    rw [ih (st ++ [(k, jp)]) hnodup.2 hfresh', List.append_assoc]
    rfl

theorem handleDiff_pendingDiffs {α : Type} (ctx : PresenceCtx α) (diff : PresenceDiff α) :
    (handleDiff ctx diff).1.pendingDiffs = ctx.pendingDiffs := by
  by_cases h : ctx.joinRef.isNone <;> simp [handleDiff, h]

/-- C8 amended: a presence_diff received before any snapshot is applied
immediately against the empty state — the resulting local state is exactly the
diff's joins (leaves are processed first against the empty state and so have
no effect on it), not the joins minus the leaves; the diff is never buffered
(pendingDiffs is left unchanged by handleDiff, and nothing in the reconciler
appends to it); and a subsequent presence_state snapshot replaces the local
state with exactly the snapshot's contents. -/
theorem claim_C8_diff_before_snapshot {α : Type} (ctx : PresenceCtx α)
    (diff : PresenceDiff α) (snap : PresenceState α) (ref : Option String)
    (href : ctx.joinRef = none) (hkeys : (diff.joins.map Prod.fst).Nodup) :
    (handleDiff ctx diff).1.state = diff.joins ∧
    (handleDiff ctx diff).1.joinRef = some "auto" ∧
    (handleDiff ctx diff).1.pendingDiffs = ctx.pendingDiffs ∧
    (ctx.pendingDiffs = [] →
      handleState (handleDiff ctx diff).1 snap ref =
        ({ joinRef := ref, state := snap, pendingDiffs := [] },
          [PresenceEvent.sync])) := by
  have hinit : ctx.joinRef.isNone = true := by rw [href]; rfl
  have hstate : (handleDiff ctx diff).1.state = diff.joins := by
    simp only [handleDiff, hinit, if_pos]
    rw [applyEntries_leave_nil_state]
    rw [applyEntries_join_fresh diff.joins [] hkeys (by intro k _; rfl)]
    rfl
  refine ⟨hstate, by simp [handleDiff, hinit], handleDiff_pendingDiffs ctx diff, ?_⟩
  intro hpend
  have hpend' : (handleDiff ctx diff).1.pendingDiffs = [] := by
    rw [handleDiff_pendingDiffs, hpend]
  simp [handleState, hpend']

/-- C8 witness: the amended statement on a concrete first diff and a
subsequent snapshot. -/
theorem claim_C8_witness :
    (handleDiff (⟨none, [], []⟩ : PresenceCtx Nat)
        ⟨[("k", [⟨"r", 0⟩])], []⟩).1.state = [("k", [⟨"r", 0⟩])] ∧
    handleState (handleDiff (⟨none, [], []⟩ : PresenceCtx Nat)
          ⟨[("k", [⟨"r", 0⟩])], []⟩).1 [("s", [⟨"q", 1⟩])] (some "5") =
      ({ joinRef := some "5", state := [("s", [⟨"q", 1⟩])], pendingDiffs := [] },
        [PresenceEvent.sync]) :=
  ⟨(claim_C8_diff_before_snapshot ⟨none, [], []⟩ ⟨[("k", [⟨"r", 0⟩])], []⟩
      [("s", [⟨"q", 1⟩])] (some "5") rfl (by decide)).1,
    (claim_C8_diff_before_snapshot ⟨none, [], []⟩ ⟨[("k", [⟨"r", 0⟩])], []⟩
      [("s", [⟨"q", 1⟩])] (some "5") rfl (by decide)).2.2.2 rfl⟩

/-- C8 counterexample: a first diff whose single join also appears in its
leaves. The reconciler applies leaves first against the empty state, so the
result is the join list itself — not the claimed joins minus leaves (which
would be empty). -/
theorem claim_C8_counterexample :
    (handleDiff (⟨none, [], []⟩ : PresenceCtx Nat)
        ⟨[("k", [⟨"r", 0⟩])], [("k", [⟨"r", 0⟩])]⟩).1.state ≠
      specJoinsMinusLeaves ⟨[("k", [⟨"r", 0⟩])], [("k", [⟨"r", 0⟩])]⟩ ∧
    (handleDiff (⟨none, [], []⟩ : PresenceCtx Nat)
        ⟨[("k", [⟨"r", 0⟩])], [("k", [⟨"r", 0⟩])]⟩).1.state = [("k", [⟨"r", 0⟩])] := by
  constructor
  · decide
  · decide

theorem objGet_objSet_self {α : Type} (st : PresenceState α) (k : String)
    (v : List (Presence α)) : objGet (objSet st k v) k = some v := by
  induction st with
  | nil => simp [objSet, objGet]
  | cons kv rest ih =>
    obtain ⟨k', v'⟩ := kv
    by_cases h : k' = k
    · subst h
      simp [objSet, objGet]
    · simp [objSet, objGet, h, ih]

theorem objGet_objSet_ne {α : Type} (st : PresenceState α) (k k' : String)
    (v : List (Presence α)) (h : k' ≠ k) :
    objGet (objSet st k v) k' = objGet st k' := by
  induction st with
  | nil => simp [objSet, objGet, Ne.symm h]
  | cons kv rest ih =>
    obtain ⟨k₀, v₀⟩ := kv
    by_cases h0 : k₀ = k
    · subst h0
      simp [objSet, objGet, Ne.symm h]
    · by_cases h1 : k₀ = k'
      · simp [objSet, objGet, h0, h1, h]
      · simp [objSet, objGet, h0, h1, ih]

theorem objGet_objDel_self {α : Type} (st : PresenceState α) (k : String) :
    objGet (objDel st k) k = none := by
  induction st with
  | nil => rfl
  | cons kv rest ih =>
    obtain ⟨k', v⟩ := kv
    by_cases h : k' = k
    · subst h
      simpa [objDel] using ih
    · simp only [objDel, List.filter_cons] at ih ⊢
      simp [h, objGet, ih]

theorem objGet_objDel_ne {α : Type} (st : PresenceState α) (k k' : String) (h : k' ≠ k) :
    objGet (objDel st k) k' = objGet st k' := by
  induction st with
  | nil => rfl
  | cons kv rest ih =>
    obtain ⟨k₀, v⟩ := kv
    by_cases h0 : k₀ = k
    · subst h0
      simp only [objDel, List.filter_cons] at ih ⊢
      simp [objGet, Ne.symm h, ih]
    · by_cases h1 : k₀ = k'
      · simp only [objDel, List.filter_cons] at ih ⊢
        simp [objGet, h0, h1, h]
      · simp only [objDel, List.filter_cons] at ih ⊢
        simp [objGet, h0, h1, ih]

theorem objGet_mem {α : Type} {st : PresenceState α} {k : String}
    {v : List (Presence α)} (h : objGet st k = some v) : (k, v) ∈ st := by
  induction st with
  | nil => cases h
  | cons kv rest ih =>
    obtain ⟨k', v'⟩ := kv
    by_cases hk : k' = k
    · subst hk
      have hv : v' = v := by simpa [objGet] using h
      exact hv ▸ List.mem_cons_self _ _
    · simp only [objGet, if_neg hk] at h
      exact List.mem_cons_of_mem _ (ih h)

theorem mem_objSet {α : Type} {st : PresenceState α} {k : String}
    {v : List (Presence α)} {a : String × List (Presence α)}
    (h : a ∈ objSet st k v) : a = (k, v) ∨ a ∈ st := by
  induction st with
  | nil =>
    simp only [objSet, List.mem_singleton] at h
    exact Or.inl h
  | cons kv rest ih =>
    obtain ⟨k', v'⟩ := kv
    by_cases hk : k' = k
    · subst hk
      have h' : a = (k', v) ∨ a ∈ rest := by simpa [objSet] using h
      rcases h' with h' | h'
      · exact Or.inl h'
      · exact Or.inr (List.mem_cons_of_mem _ h')
    · have h' : a = (k', v') ∨ a ∈ objSet rest k v := by
        simpa [objSet, hk] using h
      rcases h' with h' | h'
      · exact Or.inr (h' ▸ List.mem_cons_self _ _)
      · rcases ih h' with h'' | h''
        · exact Or.inl h''
        · exact Or.inr (List.mem_cons_of_mem _ h'')

theorem mem_objDel {α : Type} {st : PresenceState α} {k : String}
    {a : String × List (Presence α)} (h : a ∈ objDel st k) : a ∈ st :=
  List.mem_of_mem_filter h

theorem noDupRefs_objSet {α : Type} {st : PresenceState α} {k : String}
    {v : List (Presence α)} (h : NoDupRefs st)
    (hv : (v.map (fun p => p.presence_ref)).Nodup) : NoDupRefs (objSet st k v) := by
  intro kv hkv
  rcases mem_objSet hkv with rfl | hmem
  · exact hv
  · exact h kv hmem

theorem noDupRefs_objDel {α : Type} {st : PresenceState α} {k : String}
    (h : NoDupRefs st) : NoDupRefs (objDel st k) :=
  fun kv hkv => h kv (mem_objDel hkv)

theorem refs_of_objGet {α : Type} {st : PresenceState α} (h : NoDupRefs st) (k : String) :
    (((objGet st k).getD []).map (fun p => p.presence_ref)).Nodup := by
  cases hg : objGet st k with
  | none => simp
  | some cur => simpa using h (k, cur) (objGet_mem hg)

theorem applyLeave_state_noDupRefs {α : Type} {st : PresenceState α}
    (kv : String × List (Presence α)) (h : NoDupRefs st) :
    NoDupRefs (applyLeave st kv).1 := by
  simp only [applyLeave]
  split
  · exact noDupRefs_objDel h
  · refine noDupRefs_objSet h ?_
    exact (refs_of_objGet h kv.1).sublist
      ((List.filter_sublist ((objGet st kv.1).getD [])).map _)

theorem applyJoin_state_noDupRefs {α : Type} {st : PresenceState α}
    {kv : String × List (Presence α)} (h : NoDupRefs st)
    (hkv : (kv.2.map (fun p => p.presence_ref)).Nodup) :
    NoDupRefs (applyJoin st kv).1 := by
  simp only [applyJoin]
  refine noDupRefs_objSet h ?_
  rw [List.map_append, List.nodup_append]
  refine ⟨refs_of_objGet h kv.1, hkv.sublist ((List.filter_sublist kv.2).map _), ?_⟩
  intro a ha hb
  rcases List.mem_map.mp hb with ⟨p, hp, rfl⟩
  have hpred := (List.mem_filter.mp hp).2
  simp only [Bool.not_eq_true'] at hpred
  have hcontains : (((objGet st kv.1).getD []).map
      (fun q => q.presence_ref)).contains p.presence_ref = true := by
    simpa using ha
  rw [hpred] at hcontains
  cases hcontains

theorem applyEntries_leave_noDupRefs {α : Type} (entries : PresenceState α) :
    ∀ st : PresenceState α, NoDupRefs st →
      NoDupRefs (applyEntries applyLeave st entries).1 := by
  induction entries with
  | nil => intro st h; exact h
  | cons kv rest ih =>
    intro st h
    simp only [applyEntries]
    exact ih _ (applyLeave_state_noDupRefs kv h)

theorem applyEntries_join_noDupRefs {α : Type} (entries : PresenceState α) :
    ∀ st : PresenceState α, NoDupRefs st →
      (∀ kv ∈ entries, (kv.2.map (fun p => p.presence_ref)).Nodup) →
      NoDupRefs (applyEntries applyJoin st entries).1 := by
  induction entries with
  | nil => intro st h _; exact h
  | cons kv rest ih =>
    intro st h hall
    simp only [applyEntries]
    exact ih _ (applyJoin_state_noDupRefs h (hall kv (List.mem_cons_self _ _)))
      (fun kv' hkv' => hall kv' (List.mem_cons_of_mem _ hkv'))

theorem applyEntries_events_all {α : Type}
    (step : PresenceState α → String × List (Presence α) →
      PresenceState α × List (PresenceEvent α))
    (pred : PresenceEvent α → Bool)
    (hstep : ∀ st kv, ∀ e ∈ (step st kv).2, pred e = true) :
    ∀ (entries : PresenceState α) (st : PresenceState α),
      ∀ e ∈ (applyEntries step st entries).2, pred e = true := by
  intro entries
  induction entries with
  | nil =>
    intro st e he
    simp [applyEntries] at he
  | cons kv rest ih =>
    intro st e he
    simp only [applyEntries] at he
    rcases List.mem_append.mp he with h | h
    · exact hstep st kv e h
    · exact ih _ e h

theorem applyLeave_events_leave {α : Type} (st : PresenceState α)
    (kv : String × List (Presence α)) :
    ∀ e ∈ (applyLeave st kv).2, e.isLeaveEvent = true := by
  intro e he
  simp only [applyLeave] at he
  split at he
  · cases he
  · rw [List.mem_singleton] at he
    subst he
    rfl

theorem applyJoin_events_join {α : Type} (st : PresenceState α)
    (kv : String × List (Presence α)) :
    ∀ e ∈ (applyJoin st kv).2, e.isJoinEvent = true := by
  intro e he
  simp only [applyJoin] at he
  split at he
  · cases he
  · rw [List.mem_singleton] at he
    subst he
    rfl

theorem applyLeave_objGet_ne {α : Type} (st : PresenceState α)
    (kv : String × List (Presence α)) (k : String) (h : k ≠ kv.1) :
    objGet (applyLeave st kv).1 k = objGet st k := by
  simp only [applyLeave]
  split
  · exact objGet_objDel_ne st kv.1 k h
  · exact objGet_objSet_ne st kv.1 k _ h

theorem applyJoin_objGet_ne {α : Type} (st : PresenceState α)
    (kv : String × List (Presence α)) (k : String) (h : k ≠ kv.1) :
    objGet (applyJoin st kv).1 k = objGet st k := by
  simp only [applyJoin]
  exact objGet_objSet_ne st kv.1 k _ h

theorem applyEntries_objGet_notMem {α : Type}
    (step : PresenceState α → String × List (Presence α) →
      PresenceState α × List (PresenceEvent α))
    (hstep : ∀ (st : PresenceState α) kv (k : String), k ≠ kv.1 →
      objGet (step st kv).1 k = objGet st k)
    (entries : PresenceState α) :
    ∀ (st : PresenceState α) (k : String), k ∉ entries.map Prod.fst →
      objGet (applyEntries step st entries).1 k = objGet st k := by
  induction entries with
  | nil => intro st k _; rfl
  | cons kv rest ih =>
    intro st k hk
    simp only [List.map_cons, List.mem_cons, not_or] at hk
    simp only [applyEntries]
    rw [ih _ k hk.2, hstep st kv k hk.1]

theorem applyLeave_objGet_self {α : Type} (st : PresenceState α) (k : String)
    (lp : List (Presence α)) :
    objGet (applyLeave st (k, lp)).1 k = specLeaveResult (objGet st k) lp := by
  simp only [applyLeave, specLeaveResult]
  split
  · next hemp => simp [objGet_objDel_self, hemp]
  · next hemp => simp [objGet_objSet_self, hemp]

theorem applyJoin_objGet_self {α : Type} (st : PresenceState α) (k : String)
    (jp : List (Presence α)) :
    objGet (applyJoin st (k, jp)).1 k = specJoinResult (objGet st k) jp := by
  simp only [applyJoin, specJoinResult]
  simp [objGet_objSet_self]

theorem applyEntries_leave_spec {α : Type} (entries : PresenceState α) :
    ∀ st : PresenceState α, (entries.map Prod.fst).Nodup →
      ∀ (k : String) (lp : List (Presence α)), (k, lp) ∈ entries →
        objGet (applyEntries applyLeave st entries).1 k =
          specLeaveResult (objGet st k) lp := by
  induction entries with
  | nil => intro st _ k lp h; cases h
  | cons kv rest ih =>
    intro st hnodup k lp hmem
    rw [List.map_cons, List.nodup_cons] at hnodup
    simp only [applyEntries]
    rcases List.mem_cons.mp hmem with heq | hmem'
    · have hk1 : kv.1 = k := by rw [← heq]
      have hk2 : kv.2 = lp := by rw [← heq]
      rw [applyEntries_objGet_notMem applyLeave applyLeave_objGet_ne rest _ k
        (hk1 ▸ hnodup.1)]
      rw [← hk1, ← hk2]
      exact applyLeave_objGet_self st kv.1 kv.2
    · have hk : k ≠ kv.1 := by
        intro hc
        exact hnodup.1 (hc ▸ List.mem_map_of_mem Prod.fst hmem')
      rw [ih _ hnodup.2 k lp hmem', applyLeave_objGet_ne st kv k hk]

theorem applyEntries_join_spec {α : Type} (entries : PresenceState α) :
    ∀ st : PresenceState α, (entries.map Prod.fst).Nodup →
      ∀ (k : String) (jp : List (Presence α)), (k, jp) ∈ entries →
        objGet (applyEntries applyJoin st entries).1 k =
          specJoinResult (objGet st k) jp := by
  induction entries with
  | nil => intro st _ k jp h; cases h
  | cons kv rest ih =>
    intro st hnodup k jp hmem
    rw [List.map_cons, List.nodup_cons] at hnodup
    simp only [applyEntries]
    rcases List.mem_cons.mp hmem with heq | hmem'
    · have hk1 : kv.1 = k := by rw [← heq]
      have hk2 : kv.2 = jp := by rw [← heq]
      rw [applyEntries_objGet_notMem applyJoin applyJoin_objGet_ne rest _ k
        (hk1 ▸ hnodup.1)]
      rw [← hk1, ← hk2]
      exact applyJoin_objGet_self st kv.1 kv.2
    · have hk : k ≠ kv.1 := by
        intro hc
        exact hnodup.1 (hc ▸ List.mem_map_of_mem Prod.fst hmem')
      rw [ih _ hnodup.2 k jp hmem', applyJoin_objGet_ne st kv k hk]

theorem countP_sync_eq_zero {α : Type} (l : List (PresenceEvent α))
    (h : ∀ e ∈ l, e.isSyncEvent = false) :
    l.countP (fun e => e.isSyncEvent) = 0 :=
  List.countP_eq_zero.mpr (fun e he hc => by rw [h e he] at hc; cases hc)

theorem isSyncEvent_false_of_isLeaveEvent {α : Type} (e : PresenceEvent α)
    (h : e.isLeaveEvent = true) : e.isSyncEvent = false := by
  cases e <;> simp [PresenceEvent.isLeaveEvent, PresenceEvent.isSyncEvent] at h ⊢

theorem isSyncEvent_false_of_isJoinEvent {α : Type} (e : PresenceEvent α)
    (h : e.isJoinEvent = true) : e.isSyncEvent = false := by
  cases e <;> simp [PresenceEvent.isJoinEvent, PresenceEvent.isSyncEvent] at h ⊢

/-- C7 amended: applying a presence_diff against an existing state (snapshot
already received), with well-formed diff maps (unique keys, as JS objects
guarantee) whose join lists carry pairwise-distinct presence_refs: leaves are
processed before joins; each leave removes from its key's list exactly the
entries whose presence_ref appears in the leave set, deleting the key when the
list becomes empty; each join appends only the entries whose presence_ref is
not already present under that key, so — provided the incoming join lists are
duplicate-free, which the claim left implicit — no key's list ever contains
two entries with the same presence_ref; and the leave callbacks fire before
the join callbacks, followed by exactly one sync callback. -/
theorem claim_C7_diff_application {α : Type} (ctx : PresenceCtx α) (diff : PresenceDiff α)
    (hsnap : ctx.joinRef.isSome = true)
    (hstate : NoDupRefs ctx.state)
    (hjoins : ∀ kv ∈ diff.joins, (kv.2.map (fun p => p.presence_ref)).Nodup)
    (hlkeys : (diff.leaves.map Prod.fst).Nodup)
    (hjkeys : (diff.joins.map Prod.fst).Nodup) :
    NoDupRefs (handleDiff ctx diff).1.state ∧
    ((handleDiff ctx diff).2 =
      (applyEntries applyLeave ctx.state diff.leaves).2 ++
        ((applyEntries applyJoin (applyEntries applyLeave ctx.state diff.leaves).1
          diff.joins).2 ++ [PresenceEvent.sync]) ∧
      (∀ e ∈ (applyEntries applyLeave ctx.state diff.leaves).2,
        e.isLeaveEvent = true) ∧
      (∀ e ∈ (applyEntries applyJoin (applyEntries applyLeave ctx.state diff.leaves).1
          diff.joins).2, e.isJoinEvent = true) ∧
      (handleDiff ctx diff).2.countP (fun e => e.isSyncEvent) = 1) ∧
    (∀ (k : String) (lp : List (Presence α)), (k, lp) ∈ diff.leaves →
      objGet (applyEntries applyLeave ctx.state diff.leaves).1 k =
        specLeaveResult (objGet ctx.state k) lp) ∧
    (∀ (k : String) (jp : List (Presence α)), (k, jp) ∈ diff.joins →
      objGet (handleDiff ctx diff).1.state k =
        specJoinResult
          (objGet (applyEntries applyLeave ctx.state diff.leaves).1 k) jp) := by
  have hinit : ctx.joinRef.isNone = false := by
    cases hj : ctx.joinRef with
    | none => rw [hj] at hsnap; cases hsnap
    | some v => rfl
  have hleaveAll := applyEntries_events_all applyLeave
    (fun e => PresenceEvent.isLeaveEvent e) applyLeave_events_leave diff.leaves ctx.state
  have hjoinAll := applyEntries_events_all applyJoin
    (fun e => PresenceEvent.isJoinEvent e) applyJoin_events_join diff.joins
    (applyEntries applyLeave ctx.state diff.leaves).1
  have hevents : (handleDiff ctx diff).2 =
      (applyEntries applyLeave ctx.state diff.leaves).2 ++
        ((applyEntries applyJoin (applyEntries applyLeave ctx.state diff.leaves).1
          diff.joins).2 ++ [PresenceEvent.sync]) := by
    simp [handleDiff, hinit]
  have hresult : (handleDiff ctx diff).1.state =
      (applyEntries applyJoin (applyEntries applyLeave ctx.state diff.leaves).1
        diff.joins).1 := by
    simp [handleDiff, hinit]
  refine ⟨?_, ⟨hevents, hleaveAll, hjoinAll, ?_⟩, ?_, ?_⟩
  · rw [hresult]
    exact applyEntries_join_noDupRefs diff.joins _
      (applyEntries_leave_noDupRefs diff.leaves ctx.state hstate) hjoins
  · rw [hevents, List.countP_append, List.countP_append]
    rw [countP_sync_eq_zero _
      (fun e he => isSyncEvent_false_of_isLeaveEvent e (hleaveAll e he))]
    rw [countP_sync_eq_zero _
      (fun e he => isSyncEvent_false_of_isJoinEvent e (hjoinAll e he))]
    rfl
  · exact applyEntries_leave_spec diff.leaves ctx.state hlkeys
  · intro k jp hmem
    rw [hresult]
    exact applyEntries_join_spec diff.joins _ hjkeys k jp hmem

/-- C7 witness: the amended statement on a concrete two-device state, one
leave and one join. -/
theorem claim_C7_witness :
    NoDupRefs (handleDiff
        (⟨some "1", [("k", [⟨"a", 0⟩, ⟨"b", 1⟩])], []⟩ : PresenceCtx Nat)
        ⟨[("k2", [⟨"c", 2⟩])], [("k", [⟨"a", 0⟩])]⟩).1.state ∧
    (handleDiff (⟨some "1", [("k", [⟨"a", 0⟩, ⟨"b", 1⟩])], []⟩ : PresenceCtx Nat)
        ⟨[("k2", [⟨"c", 2⟩])], [("k", [⟨"a", 0⟩])]⟩).2.countP
      (fun e => e.isSyncEvent) = 1 ∧
    objGet (applyEntries applyLeave
        ([("k", [⟨"a", 0⟩, ⟨"b", 1⟩])] : PresenceState Nat) [("k", [⟨"a", 0⟩])]).1 "k" =
      specLeaveResult (objGet ([("k", [⟨"a", 0⟩, ⟨"b", 1⟩])] : PresenceState Nat) "k")
        [⟨"a", 0⟩] :=
  ⟨(claim_C7_diff_application ⟨some "1", [("k", [⟨"a", 0⟩, ⟨"b", 1⟩])], []⟩
      ⟨[("k2", [⟨"c", 2⟩])], [("k", [⟨"a", 0⟩])]⟩ rfl (by decide) (by decide) (by decide)
      (by decide)).1,
    (claim_C7_diff_application ⟨some "1", [("k", [⟨"a", 0⟩, ⟨"b", 1⟩])], []⟩
      ⟨[("k2", [⟨"c", 2⟩])], [("k", [⟨"a", 0⟩])]⟩ rfl (by decide) (by decide) (by decide)
      (by decide)).2.1.2.2.2,
    (claim_C7_diff_application ⟨some "1", [("k", [⟨"a", 0⟩, ⟨"b", 1⟩])], []⟩
      ⟨[("k2", [⟨"c", 2⟩])], [("k", [⟨"a", 0⟩])]⟩ rfl (by decide) (by decide) (by decide)
      (by decide)).2.2.1 "k" [⟨"a", 0⟩] (by decide)⟩

/-- C7 counterexample: a diff whose join list for one key carries the same
presence_ref twice. The reconciler deduplicates only against the pre-diff
state, so both entries are appended and the key's list ends up with two
entries sharing a presence_ref — refuting the claim's invariant as stated. -/
theorem claim_C7_counterexample :
    ¬ NoDupRefs ((handleDiff (⟨some "1", [], []⟩ : PresenceCtx Nat)
        ⟨[("k", [⟨"r", 0⟩, ⟨"r", 1⟩])], []⟩).1.state) := by
  decide

end Realtime
